import Mathlib

/-!
Formal model of the impression/affection plugin (heitiehu-beep/impression_affection_plugin).

The Python services are shallowly embedded: each service method becomes a pure
Lean function; the per-user in-memory history, the persisted dedup set and the
persisted counters become explicit values threaded through the functions.
Python floats are modelled as `ℚ` (all score literals and thresholds in the
source are small decimals, and only order comparisons and clamping matter),
Python strings as `String` (`len` counts code points in both), wall-clock
`datetime.now()` values as abstract `Nat` timestamps supplied by the caller,
and the LLM transport as an explicit `(success, text)` argument.
-/

namespace ImpressionPlugin

/-! ### Shared string helpers (Python `str.strip`, `str.lower`, regex fragments)

`pyStrip` models Python `str.strip()` (Unicode whitespace approximated by
`Char.isWhitespace`); `pyLower` models `str.lower()` for the ASCII labels the
code handles.  The regex searches in the source
(`re.search(pattern, content, re.IGNORECASE)`) are modelled by a
case-insensitive first-occurrence substring scan followed by the
whitespace skip of the pattern and character-class capture; regex backtracking to later
occurrences of the key is not modelled (no claim or witness below exercises a
text with several occurrences of the same key). -/

def pyStrip (s : String) : String :=
  String.mk (((s.data.dropWhile Char.isWhitespace).reverse.dropWhile Char.isWhitespace).reverse)

def pyLower (s : String) : String :=
  String.mk (s.data.map Char.toLower)

/-- Is `key` a case-insensitive prefix of `s`? -/
def caselessPrefixOf : List Char → List Char → Bool
  | [], _ => true
  | _ :: _, [] => false
  | k :: ks, c :: cs => (k.toLower == c.toLower) && caselessPrefixOf ks cs

/-- Chars after the first case-insensitive occurrence of `key` in `s`
(`none` when `key` does not occur). -/
def afterKeyCaseless (key : List Char) : List Char → Option (List Char)
  | [] => if key.isEmpty then some [] else none
  | c :: cs =>
    if caselessPrefixOf key (c :: cs) then some ((c :: cs).drop key.length)
    else afterKeyCaseless key cs

/-- Model of `re.search(key + r":\s*(CLASS+)", content, re.IGNORECASE)` for a
character class `CLASS` that contains no whitespace (`[\d.]` or `\w`): skip
whitespace after the key, then capture the maximal nonempty run of class
characters. -/
def findCapture (content key : String) (cls : Char → Bool) : Option String :=
  match afterKeyCaseless (key ++ ":").data content.data with
  | none => none
  | some rest =>
    let cap := (rest.dropWhile Char.isWhitespace).takeWhile cls
    if cap.isEmpty then none else some (String.mk cap)

/-- Model of `re.search(key + r":\s*([^;]+)", content, re.IGNORECASE)` composed
with `.strip()` on the capture group (every use site in the source strips the
group immediately).  Because `[^;]` also matches whitespace, the `\s*`/`[^;]+`
split is irrelevant after stripping: the match succeeds iff some non-`;` text
follows the key, and the stripped capture is the stripped run up to the next
`;`. -/
def findStrippedCapture (content key : String) : Option String :=
  match afterKeyCaseless (key ++ ":").data content.data with
  | none => none
  | some rest =>
    let cap := rest.takeWhile (fun c => c != ';')
    if cap.isEmpty then none else some (pyStrip (String.mk cap))

/-- `digits.foldl (a*10 + d)`, the value of an ASCII digit run. -/
def digitsVal (l : List Char) : Nat :=
  l.foldl (fun a c => a * 10 + (c.toNat - 48)) 0

/-- Model of Python `float(s)` restricted to the `[\d.]+` capture class:
defined exactly on strings with at least one digit and at most one dot
(`float` raises otherwise, which the source catches). -/
def parsePyFloat (s : String) : Option ℚ :=
  let parts := s.data.splitOn '.'
  match parts with
  | [a] => if a.isEmpty then none else some (mkRat (digitsVal a) 1)
  | [a, b] =>
    if a.isEmpty && b.isEmpty then none
    else some (mkRat (digitsVal a * 10 ^ b.length + digitsVal b) (10 ^ b.length))
  | _ => none

/-! ### WeightService (src/services/weight_service.py) -/

/-- One entry of the in-memory per-user history
`(message_id, score, level, timestamp, message[:100], context[:100])`. -/
structure WeightRecord where
  messageId : String
  score : ℚ
  level : String
  timestamp : Nat
  messageExcerpt : String
  contextExcerpt : String
deriving DecidableEq, Repr

/-- A JSON-ish value as stored in the parsed weight dict (the dicts in
the source hold floats and strings). -/
inductive JVal where
  | num : ℚ → JVal
  | str : String → JVal
deriving DecidableEq, Repr

/-- Append one prepared record and apply the 100-entry cap
(`self.message_weights[user_id] = self.message_weights[user_id][-100:]`,
i.e. keep the last 100). -/
def save_weight_rec (hist : List WeightRecord) (r : WeightRecord) : List WeightRecord :=
  let h := hist ++ [r]
  if h.length > 100 then h.drop (h.length - 100) else h

/-- `_save_weight`: build the record (with the 100-char excerpt truncations)
and append it under the cap. -/
def save_weight (hist : List WeightRecord) (messageId message context : String)
    (score : ℚ) (level : String) (now : Nat) : List WeightRecord :=
  save_weight_rec hist
    ⟨messageId, score, level, now, message.take 100, context.take 100⟩

/-- `_save_default_weight`: the deterministic length heuristic
(`len(message) > 20` → 50.0/"medium", else 20.0/"low"), saved into the
history; always reports success. -/
def save_default_weight (hist : List WeightRecord) (messageId message context : String)
    (now : Nat) : (Bool × ℚ × String) × List WeightRecord :=
  let sl : ℚ × String := if message.length > 20 then (50, "medium") else (20, "low")
  ((true, sl.1, sl.2), save_weight hist messageId message context sl.1 sl.2 now)

/-- The `REASON:\s*(.+?)(?:\n|;消息:|$)` capture: chars up to the first
newline or the first `;消息:` delimiter (`.` does not match newlines). -/
def takeReasonChars : List Char → List Char
  | [] => []
  | c :: rest =>
    if c = '\n' then []
    else
      match c :: rest with
      | ';' :: '消' :: '息' :: ':' :: _ => []
      | _ => c :: takeReasonChars rest

def findReasonCapture (content : String) : Option String :=
  match afterKeyCaseless "REASON:".data content.data with
  | none => none
  | some rest =>
    let cap := takeReasonChars (rest.dropWhile Char.isWhitespace)
    if cap.isEmpty then none else some (pyStrip (String.mk cap))

/-- Insert into the dict model with Python-dict semantics
(later assignment to an existing key overwrites in place). -/
def dictInsert (d : List (String × JVal)) (k : String) (v : JVal) : List (String × JVal) :=
  if (d.lookup k).isSome then d.map (fun p => if p.1 = k then (k, v) else p)
  else d ++ [(k, v)]

def jsonSkipWs (cs : List Char) : List Char :=
  cs.dropWhile (fun c => c == ' ' || c == '\n' || c == '\t' || c == '\r')

/-- JSON string literal (escape sequences not modelled; no claim below feeds
the JSON path a string containing escapes). -/
def parseJString : List Char → Option (String × List Char)
  | '"' :: rest =>
    let s := rest.takeWhile (fun c => c != '"')
    match rest.drop s.length with
    | '"' :: r => some (String.mk s, r)
    | _ => none
  | _ => none

/-- JSON number: optional minus, integer part, optional fraction
(exponents not modelled). -/
def parseJNumber (cs : List Char) : Option (ℚ × List Char) :=
  let (neg, cs1) : Bool × List Char :=
    match cs with
    | '-' :: r => (true, r)
    | _ => (false, cs)
  let ds := cs1.takeWhile Char.isDigit
  if ds.isEmpty then none
  else
    let cs2 := cs1.drop ds.length
    let (n, d, rest) : Nat × Nat × List Char :=
      match cs2 with
      | '.' :: r2 =>
        let fs := r2.takeWhile Char.isDigit
        if fs.isEmpty then (digitsVal ds, 1, cs2)
        else (digitsVal ds * 10 ^ fs.length + digitsVal fs, 10 ^ fs.length, r2.drop fs.length)
      | _ => (digitsVal ds, 1, cs2)
    some (mkRat (if neg then -(n : Int) else (n : Int)) d, rest)

def parseJValue (cs : List Char) : Option (JVal × List Char) :=
  match parseJString cs with
  | some (s, r) => some (.str s, r)
  | none =>
    match parseJNumber cs with
    | some (q, r) => some (.num q, r)
    | none => none

/-- Member list of a flat JSON object, fuel-bounded recursion. -/
def parseJPairs : Nat → List Char → List (String × JVal) → Option (List (String × JVal))
  | 0, _, _ => none
  | fuel + 1, cs, acc =>
    match parseJString (jsonSkipWs cs) with
    | none => none
    | some (k, r1) =>
      match jsonSkipWs r1 with
      | ':' :: r2 =>
        match parseJValue (jsonSkipWs r2) with
        | none => none
        | some (v, r3) =>
          match jsonSkipWs r3 with
          | ',' :: r4 => parseJPairs fuel r4 (dictInsert acc k v)
          | '\x7d' :: r5 =>
            if (jsonSkipWs r5).isEmpty then some (dictInsert acc k v) else none
          | _ => none
      | _ => none

/-- Model of `json.loads` on the extracted fragment, restricted to flat
objects of strings and numbers (模型 outputs that degrade to loose JSON);
nested values make `loads` succeed in Python but are not modelled — no claim
below depends on a nested-JSON response. -/
def parseFlatJson (cs : List Char) : Option (List (String × JVal)) :=
  match jsonSkipWs cs with
  | '\x7b' :: r =>
    match jsonSkipWs r with
    | '\x7d' :: r2 => if (jsonSkipWs r2).isEmpty then some [] else none
    | r2 => parseJPairs (cs.length + 1) r2 []
  | _ => none

/-- The JSON fallback of `_parse_weight_response`: substring from the first
`{` to the last `}`, parsed, accepted only when it is an object containing a
`weight_score` key. -/
def jsonFallback (c : String) : Option (List (String × JVal)) :=
  let cs := c.data
  match cs.findIdx? (fun ch => ch == '\x7b'), cs.reverse.findIdx? (fun ch => ch == '\x7d') with
  | some s, some rIdx =>
    let e := cs.length - 1 - rIdx
    if e > s then
      match parseFlatJson ((cs.drop s).take (e - s + 1)) with
      | some d => if (d.lookup "weight_score").isSome then some d else none
      | none => none
    else none
  | _, _ => none

/-- `_parse_weight_response`: strip, reject responses shorter than 10 chars,
try the `WEIGHT_SCORE/WEIGHT_LEVEL/REASON` key-value patterns (the dict is
returned iff it got a `weight_score`; a `float()` failure on the score capture
is caught and stored as 0.0), otherwise fall back to the JSON fragment. -/
def parse_weight_response (content : String) : Option (List (String × JVal)) :=
  let c := pyStrip content
  if c.length < 10 then none
  else
    let scoreCap := findCapture c "WEIGHT_SCORE" (fun ch => ch.isDigit || ch == '.')
    let levelCap := findCapture c "WEIGHT_LEVEL" (fun ch => ch.isAlphanum || ch == '_')
    let reasonCap := findReasonCapture c
    let kv : List (String × JVal) :=
      (match scoreCap with
       | some s => [("weight_score", JVal.num ((parsePyFloat s).getD 0))]
       | none => []) ++
      (match levelCap with
       | some s => [("weight_level", JVal.str (pyLower (pyStrip s)))]
       | none => []) ++
      (match reasonCap with
       | some s => [("reason", JVal.str s)]
       | none => [])
    if (kv.lookup "weight_score").isSome then some kv
    else jsonFallback c

/-- `float(result.get("weight_score", 0.0))`: a numeric value passes through,
a string value goes through `float()` (strip, optional sign, digits); `none`
models the raised `ValueError` that the outer `except` turns into a failed
evaluation. -/
def jvalToFloat : JVal → Option ℚ
  | .num q => some q
  | .str s =>
    let t := pyStrip s
    match t.data with
    | '-' :: rest => (parsePyFloat (String.mk rest)).map (fun q => mkRat (-q.num) q.den)
    | '+' :: rest => parsePyFloat (String.mk rest)
    | _ => parsePyFloat t

/-- `result.get("weight_level", "low")` is used as the level directly; a
numeric JSON value would be carried as-is by Python and only ever rendered via
`str()` — modelled by a plain rendering. -/
def jvalToLevel : JVal → String
  | .str s => s
  | .num q => toString q.num ++ "/" ++ toString q.den

/-- `evaluate_message`: return the cached score/level when the message id is
already in the user history (no re-evaluation, no append); otherwise consult
the classifier output `llm = (success, content)`, falling back to the default
weight on transport failure or parse failure; on a parsed result, coerce the
score (an uncoercible score raises and is caught by the outer `except`,
returning a failure without saving), save and return. -/
def evaluate_message (hist : List WeightRecord) (messageId message context : String)
    (llm : Bool × String) (now : Nat) : (Bool × ℚ × String) × List WeightRecord :=
  match hist.find? (fun r => r.messageId == messageId) with
  | some r => ((true, r.score, r.level), hist)
  | none =>
    if llm.1 = false then save_default_weight hist messageId message context now
    else
      match parse_weight_response llm.2 with
      | none => save_default_weight hist messageId message context now
      | some result =>
        match jvalToFloat ((result.lookup "weight_score").getD (.num 0)) with
        | none => ((false, 0, "评估权重失败"), hist)
        | some ws =>
          let wl := jvalToLevel ((result.lookup "weight_level").getD (.str "low"))
          ((true, ws, wl), save_weight hist messageId message context ws wl now)

/-- The per-record filter applied by `get_filtered_messages` after the
`disabled` early return: `selective` keeps `score >= high_threshold`,
`balanced` keeps `score >= medium_threshold`, any other mode keeps
everything. -/
def weight_keep (mode : String) (high medium : ℚ) (r : WeightRecord) : Bool :=
  if mode = "selective" then decide (r.score ≥ high)
  else if mode = "balanced" then decide (r.score ≥ medium)
  else true

/-- Stable descending insertion used to model
`filtered_messages.sort(key=lambda x: x[3], reverse=True)` (the sort in Python is
stable; any stable descending sort computes the same list). -/
def insertByTimeDesc (r : WeightRecord) : List WeightRecord → List WeightRecord
  | [] => [r]
  | x :: xs =>
    if x.timestamp ≥ r.timestamp then x :: insertByTimeDesc r xs
    else r :: x :: xs

def sortByTimeDesc (l : List WeightRecord) : List WeightRecord :=
  l.foldl (fun acc r => insertByTimeDesc r acc) []

/-- `f"{score:.1f}"` for the nonnegative scores stored in the history
(rounding mode differences on exact halves are not modelled);
`⌊q * 10⌋ = (q.num * 10).fdiv q.den` since `q.den > 0`. -/
def fmtScore1 (q : ℚ) : String :=
  let n := ((q.num * 10).fdiv q.den).toNat
  toString (n / 10) ++ "." ++ toString (n % 10)

/-- `timestamp.strftime` with format `%m-%d %H:%M` on the wall clock; timestamps are
abstract, so the rendering is a plain numeral. -/
def fmtTime (t : Nat) : String := toString t

def renderWeightContext (top : List WeightRecord) : String :=
  let contexts := top.map (fun r =>
    let base := "[" ++ fmtTime r.timestamp ++ "] " ++ r.messageExcerpt
    if r.score > 0 then
      base ++ " (权重: " ++ fmtScore1 r.score ++ ", 等级: " ++ r.level ++ ")"
    else base)
  "\n\n最近对话记录 (共 " ++ toString contexts.length ++ " 条):\n"
    ++ String.intercalate "\n" contexts

/-- `get_filtered_messages`: empty for `disabled`; otherwise filter by mode,
sort by timestamp descending, take the first `limit`, and render the block
plus the included message ids. -/
def get_filtered_messages (mode : String) (high medium : ℚ)
    (hist : List WeightRecord) (limit : Nat) : String × List String :=
  if mode = "disabled" then ("", [])
  else
    let filtered := hist.filter (weight_keep mode high medium)
    let top := (sortByTimeDesc filtered).take limit
    if top = [] then ("", [])
    else (renderWeightContext top, top.map (fun r => r.messageId))

/-! ### Admission decision (src/plugin.py, ImpressionUpdateHandler.handle) -/

/-- The per-message admission decision of the plugin for profile updates:
`should_update_impression` starts `False`, is set to `True` for `disabled`,
to `score >= high_threshold` for `selective` and to `score >= medium_threshold`
for `balanced`, and stays `False` for any other mode. -/
def should_update_impression (mode : String) (high medium score : ℚ) : Bool :=
  if mode = "disabled" then true
  else if mode = "selective" then decide (score ≥ high)
  else if mode = "balanced" then decide (score ≥ medium)
  else false

/-! ### TextImpressionService (src/services/text_impression_service.py) -/

/-- The eight impression dimensions, in the order the parser probes them. -/
def impressionDims : List String :=
  ["personality_traits", "interests_hobbies", "communication_style",
   "emotional_tendencies", "behavioral_patterns", "values_attitudes",
   "relationship_preferences", "growth_development"]

/-- One extraction step of `_parse_impression_response`: the pattern
`key:\s*([^;]+)` (case-insensitive) with the capture stripped; a value that is
empty or equal to the sentinel `待观察` is not stored. -/
def impressionStep (content : String) (acc : List (String × String)) (key : String) :
    List (String × String) :=
  match findStrippedCapture content key with
  | some v => if v ≠ "" ∧ v ≠ "待观察" then acc ++ [(key, v)] else acc
  | none => acc

/-- The primary key-value extraction over the eight dimension patterns. -/
def primaryImpressionExtract (content : String) : List (String × String) :=
  impressionDims.foldl (impressionStep content) []

/-- `_parse_impression_response`: strip, run the eight dimension patterns;
when none of them yields a value, fall back to the `IMPRESSION:\s*([^;]+)`
pattern, whose stripped capture is stored verbatim under `interests_hobbies`
(no sentinel check on this path); otherwise return the empty mapping. -/
def parse_impression_response (content : String) : List (String × String) :=
  let c := pyStrip content
  let result := primaryImpressionExtract c
  if result ≠ [] then result
  else
    match findStrippedCapture c "IMPRESSION" with
    | some v => [("interests_hobbies", v)]
    | none => []

/-- The `user_impressions` row (src/models/user_impression.py); peewee field
defaults become structure defaults, timestamps are abstract `Nat`s. -/
structure UserImpression where
  user_id : String
  personality_traits : String := ""
  interests_hobbies : String := ""
  communication_style : String := ""
  emotional_tendencies : String := ""
  behavioral_patterns : String := ""
  values_attitudes : String := ""
  relationship_preferences : String := ""
  growth_development : String := ""
  affection_score : ℚ := 50
  affection_level : String := "一般"
  message_count : Nat := 0
  last_interaction : Nat := 0
  created_at : Nat := 0
  updated_at : Nat := 0
deriving DecidableEq, Repr

/-- The row `get_or_create` builds on a miss (model defaults plus the
explicit `defaults` of `_save_impression`). -/
def newUserImpression (uid : String) (now : Nat) : UserImpression :=
  { user_id := uid, last_interaction := now, created_at := now, updated_at := now }

/-- `_save_impression`: load-or-create the row, then assign every one of the
eight dimension fields from `impression_data.get(key, "")` — a dimension
absent from the parsed mapping is therefore overwritten with the empty
string — then bump `message_count` and the timestamps. -/
def save_impression (existing : Option UserImpression) (uid : String)
    (data : List (String × String)) (now : Nat) : UserImpression :=
  let ic : UserImpression × Bool :=
    match existing with
    | some i => (i, false)
    | none => (newUserImpression uid now, true)
  { ic.1 with
    personality_traits := (data.lookup "personality_traits").getD "",
    interests_hobbies := (data.lookup "interests_hobbies").getD "",
    communication_style := (data.lookup "communication_style").getD "",
    emotional_tendencies := (data.lookup "emotional_tendencies").getD "",
    behavioral_patterns := (data.lookup "behavioral_patterns").getD "",
    values_attitudes := (data.lookup "values_attitudes").getD "",
    relationship_preferences := (data.lookup "relationship_preferences").getD "",
    growth_development := (data.lookup "growth_development").getD "",
    message_count := if ic.2 then 1 else ic.1.message_count + 1,
    last_interaction := now,
    updated_at := now }

/-- `build_impression`: fail on classifier failure, fail on an empty parsed
mapping, otherwise persist via `_save_impression` and report success (the
prompt built from `message`/`history_context` only feeds the abstract
classifier, whose output is the explicit `llm` argument). -/
def build_impression (existing : Option UserImpression) (uid _message _history_context : String)
    (llm : Bool × String) (now : Nat) : (Bool × String) × Option UserImpression :=
  if llm.1 = false then ((false, "LLM调用失败: " ++ llm.2), existing)
  else
    let data := parse_impression_response llm.2
    if data = [] then ((false, "解析失败: " ++ llm.2), existing)
    else
      ((true, (data.lookup "impression").getD "印象构建成功"),
       some (save_impression existing uid data now))

/-! ### MessageService (src/services/message_service.py) -/

/-- The persisted `impression_message_records` table, modelled as the list of
its `(user_id, message_id)` pairs (the composite unique index makes the pair
the identity of a row). -/
def is_message_processed (recs : List (String × String)) (u m : String) : Bool :=
  recs.contains (u, m)

/-- `record_processed_message`: report `false` and change nothing when the
pair already exists, otherwise create the row and report `true`. -/
def record_processed_message (recs : List (String × String)) (u m : String) :
    Bool × List (String × String) :=
  if recs.contains (u, m) then (false, recs) else (true, recs ++ [(u, m)])

/-- The `user_message_state` row (src/models/user_message_state.py). -/
structure UserMessageState where
  user_id : String
  last_message_id : Option String := none
  last_message_time : Option Nat := none
  impression_update_count : Nat := 0
  affection_update_count : Nat := 0
  total_messages : Nat := 0
  processed_messages : Nat := 0
deriving DecidableEq, Repr

/-- The row `UserMessageState.get_or_create(user_id=...)` builds on a miss
(all counters at their field defaults of 0). -/
def initMessageState (uid : String) : UserMessageState := { user_id := uid }

/-- `update_message_state` on an existing row: set the last-message fields,
increment `total_messages` and `processed_messages` unconditionally, and the
per-kind counters according to the flags. -/
def update_message_state (s : UserMessageState) (message_id : String) (now : Nat)
    (impression_updated affection_updated : Bool) : UserMessageState :=
  { s with
    last_message_id := some message_id,
    last_message_time := some now,
    total_messages := s.total_messages + 1,
    processed_messages := s.processed_messages + 1,
    impression_update_count :=
      s.impression_update_count + (if impression_updated then 1 else 0),
    affection_update_count :=
      s.affection_update_count + (if affection_updated then 1 else 0) }

/-! ### Claim theorems -/

/-- C3 (confirmed): admission semantics of the profile-update gate in the plugin —
`disabled` always admits; `selective` admits exactly the scores at or above
the high threshold; `balanced` admits exactly the scores at or above the
medium threshold; with thresholds 70/40, a score of 75 admits under
`selective` and `balanced`, 50 only under `balanced`, and 20 under neither. -/
theorem C3_admission_semantics (high medium s : ℚ) :
    should_update_impression "disabled" high medium s = true ∧
    should_update_impression "selective" high medium s = decide (s ≥ high) ∧
    should_update_impression "balanced" high medium s = decide (s ≥ medium) ∧
    should_update_impression "selective" 70 40 75 = true ∧
    should_update_impression "balanced" 70 40 75 = true ∧
    should_update_impression "disabled" 70 40 75 = true ∧
    should_update_impression "selective" 70 40 50 = false ∧
    should_update_impression "balanced" 70 40 50 = true ∧
    should_update_impression "selective" 70 40 20 = false ∧
    should_update_impression "balanced" 70 40 20 = false :=
  ⟨rfl, rfl, rfl, rfl, rfl, rfl, rfl, rfl, rfl, rfl⟩

/-- C4 (confirmed): when the weight evaluation of a not-yet-cached message
hits a classifier failure, or a classifier success whose response fails to
parse, `evaluate_message` routes through `_save_default_weight` and still
reports success with score 50.0 / level "medium" for messages longer than 20
characters and 20.0 / "low" otherwise. -/
theorem C4_deterministic_fallback (hist : List WeightRecord)
    (messageId message context content : String) (now : Nat)
    (hmiss : hist.find? (fun r => r.messageId == messageId) = none) :
    (evaluate_message hist messageId message context (false, content) now
      = save_default_weight hist messageId message context now) ∧
    (parse_weight_response content = none →
      evaluate_message hist messageId message context (true, content) now
        = save_default_weight hist messageId message context now) ∧
    (save_default_weight hist messageId message context now).1
      = (true, if message.length > 20 then (50 : ℚ) else 20,
          if message.length > 20 then "medium" else "low") := by
  refine ⟨?_, ?_, ?_⟩
  · simp [evaluate_message, hmiss]
  · intro hp
    simp [evaluate_message, hmiss, hp]
  · unfold save_default_weight
    split <;> rfl

/-- Witness for C4 at concrete inputs: a 34-char message under classifier
failure falls back to 50.0/"medium"; a 2-char message under a response that
fails to parse falls back to 20.0/"low". -/
theorem C4_deterministic_fallback_witness :
    (evaluate_message [] "m1" "a message longer than twenty chars" "" (false, "x") 1).1
      = (true, 50, "medium") ∧
    (evaluate_message [] "m2" "ok" "" (true, "no data here at all") 2).1
      = (true, 20, "low") := by
  have h1 := C4_deterministic_fallback [] "m1" "a message longer than twenty chars" "" "x" 1 rfl
  have h2 := C4_deterministic_fallback [] "m2" "ok" "" "no data here at all" 2 rfl
  exact ⟨by rw [h1.1]; rfl, by rw [h2.2.1 rfl]; rfl⟩

/-- C6 (confirmed): the dedup contract — for a pair not yet recorded,
`is_message_processed` is `false`; the first `record_processed_message`
returns `true`; a second call on the resulting table returns `false` and
changes nothing; and `is_message_processed` is `true` afterwards. -/
theorem C6_dedup_contract (recs : List (String × String)) (u m : String)
    (h : recs.contains (u, m) = false) :
    is_message_processed recs u m = false ∧
    (record_processed_message recs u m).1 = true ∧
    (record_processed_message (record_processed_message recs u m).2 u m).1 = false ∧
    (record_processed_message (record_processed_message recs u m).2 u m).2
      = (record_processed_message recs u m).2 ∧
    is_message_processed (record_processed_message recs u m).2 u m = true := by
  unfold is_message_processed record_processed_message
  rw [h]
  simp

/-- Witness for C6 on the empty table and the pair `("u1", "m1")`. -/
theorem C6_dedup_contract_witness :
    is_message_processed [] "u1" "m1" = false ∧
    (record_processed_message [] "u1" "m1").1 = true ∧
    (record_processed_message (record_processed_message [] "u1" "m1").2 "u1" "m1").1 = false ∧
    (record_processed_message (record_processed_message [] "u1" "m1").2 "u1" "m1").2
      = (record_processed_message [] "u1" "m1").2 ∧
    is_message_processed (record_processed_message [] "u1" "m1").2 "u1" "m1" = true :=
  C6_dedup_contract [] "u1" "m1" rfl

/-- C8 (confirmed): a `UserMessageState` mutated only through
`update_message_state` keeps `total_messages = processed_messages` — both
counters default to 0 in a fresh row and every call increments each by exactly
1, whatever the impression/affection flags are. -/
theorem C8_counters_in_lockstep (uid mid : String) (now : Nat) (i a : Bool)
    (s : UserMessageState) (ops : List (String × Nat × Bool × Bool)) :
    (initMessageState uid).total_messages = 0 ∧
    (initMessageState uid).processed_messages = 0 ∧
    (update_message_state s mid now i a).total_messages = s.total_messages + 1 ∧
    (update_message_state s mid now i a).processed_messages = s.processed_messages + 1 ∧
    (ops.foldl (fun t op => update_message_state t op.1 op.2.1 op.2.2.1 op.2.2.2)
        (initMessageState uid)).total_messages
      = (ops.foldl (fun t op => update_message_state t op.1 op.2.1 op.2.2.1 op.2.2.2)
          (initMessageState uid)).processed_messages := by
  refine ⟨rfl, rfl, rfl, rfl, ?_⟩
  have aux : ∀ (l : List (String × Nat × Bool × Bool)) (t : UserMessageState),
      t.total_messages = t.processed_messages →
      (l.foldl (fun t op => update_message_state t op.1 op.2.1 op.2.2.1 op.2.2.2)
          t).total_messages
        = (l.foldl (fun t op => update_message_state t op.1 op.2.1 op.2.2.1 op.2.2.2)
            t).processed_messages := by
    intro l
    induction l with
    | nil => intro t ht; exact ht
    | cons op l ih =>
      intro t ht
      exact ih _ (by simp [update_message_state, ht])
  exact aux ops _ rfl

/-- C9 (confirmed): a classifier response whose stripped text is shorter than
10 characters is rejected by `_parse_weight_response` before any score
extraction is attempted, so a cache-missing `evaluate_message` falls back to
the default length-based weight. -/
theorem C9_short_guard (content : String) (hist : List WeightRecord)
    (messageId message context : String) (now : Nat)
    (hshort : (pyStrip content).length < 10)
    (hmiss : hist.find? (fun r => r.messageId == messageId) = none) :
    parse_weight_response content = none ∧
    evaluate_message hist messageId message context (true, content) now
      = save_default_weight hist messageId message context now := by
  have hp : parse_weight_response content = none := by
    unfold parse_weight_response
    simp [hshort]
  exact ⟨hp, by simp [evaluate_message, hmiss, hp]⟩

/-- Witness for C9 on the 8-character response `"score:95"` (score-like text,
still rejected by the length guard) and a cache-missing 2-char message. -/
theorem C9_short_guard_witness :
    (pyStrip "score:95").length < 10 ∧
    parse_weight_response "score:95" = none ∧
    evaluate_message [] "m1" "ok" "" (true, "score:95") 1
      = save_default_weight [] "m1" "ok" "" 1 := by
  have h := C9_short_guard "score:95" [] "m1" "ok" "" 1 (by decide) rfl
  exact ⟨by decide, h.1, h.2⟩

/-- A history entry already cached for user input replay tests. -/
def c2CachedRecord : WeightRecord := ⟨"m1", 80, "high", 1, "你好", ""⟩

/-- C2 (counterexample): the claim says every evaluated message — cache hit
or not — is appended to the bounded history; in the code a cache hit returns
the cached score/level early and appends nothing: re-evaluating the cached
message `"m1"` (with a perfectly parsable classifier response available)
leaves the one-entry history at length 1 instead of growing it. -/
theorem C2_cache_hit_counterexample :
    (evaluate_message [c2CachedRecord] "m1" "你好 again" ""
      (true, "WEIGHT_SCORE: 90;WEIGHT_LEVEL: high;REASON: r") 2).1 = (true, 80, "high") ∧
    (evaluate_message [c2CachedRecord] "m1" "你好 again" ""
      (true, "WEIGHT_SCORE: 90;WEIGHT_LEVEL: high;REASON: r") 2).2 = [c2CachedRecord] ∧
    ([c2CachedRecord] : List WeightRecord).length = 1 :=
  ⟨rfl, rfl, rfl⟩

/-- C2 (amended): a cache hit returns the cached score/level and leaves the
per-user history unchanged; only a cache-missing evaluation that completes
(fallback included) appends its record through the FIFO-capped
`_save_weight`; a cache-missing evaluation that dies in the score coercion
reports failure and appends nothing. -/
theorem C2_history_append_amended (hist : List WeightRecord)
    (messageId message context : String) (llm : Bool × String) (now : Nat) :
    ((hist.find? (fun r => r.messageId == messageId)).isSome = true →
      (evaluate_message hist messageId message context llm now).2 = hist) ∧
    (hist.find? (fun r => r.messageId == messageId) = none →
      ((evaluate_message hist messageId message context llm now).1.1 = false ∧
        (evaluate_message hist messageId message context llm now).2 = hist) ∨
      (∃ sc lv, (evaluate_message hist messageId message context llm now).1 = (true, sc, lv) ∧
        (evaluate_message hist messageId message context llm now).2
          = save_weight hist messageId message context sc lv now)) := by
  constructor
  · intro hsome
    cases hfind : hist.find? (fun r => r.messageId == messageId) with
    | none => rw [hfind] at hsome; simp at hsome
    | some r => simp [evaluate_message, hfind]
  · intro hmiss
    obtain ⟨b, content⟩ := llm
    cases b with
    | false =>
      right
      refine ⟨(if message.length > 20 then ((50 : ℚ), "medium") else ((20 : ℚ), "low")).1,
        (if message.length > 20 then ((50 : ℚ), "medium") else ((20 : ℚ), "low")).2, ?_, ?_⟩ <;>
        simp [evaluate_message, hmiss, save_default_weight]
    | true =>
      cases hp : parse_weight_response content with
      | none =>
        right
        refine ⟨(if message.length > 20 then ((50 : ℚ), "medium") else ((20 : ℚ), "low")).1,
          (if message.length > 20 then ((50 : ℚ), "medium") else ((20 : ℚ), "low")).2, ?_, ?_⟩ <;>
          simp [evaluate_message, hmiss, hp, save_default_weight]
      | some result =>
        cases hf : jvalToFloat ((result.lookup "weight_score").getD (.num 0)) with
        | none => left; constructor <;> simp [evaluate_message, hmiss, hp, hf]
        | some ws =>
          right
          exact ⟨ws, jvalToLevel ((result.lookup "weight_level").getD (.str "low")),
            by simp [evaluate_message, hmiss, hp, hf],
            by simp [evaluate_message, hmiss, hp, hf]⟩

/-- Witness for C2 amended: the cached pair leaves the history untouched; an
uncached message appends through `save_weight`. -/
theorem C2_history_append_witness :
    (evaluate_message [c2CachedRecord] "m1" "x" "" (true, "abc") 2).2 = [c2CachedRecord] ∧
    (((evaluate_message [] "m9" "x" "" (false, "") 3).1.1 = false ∧
        (evaluate_message [] "m9" "x" "" (false, "") 3).2 = []) ∨
      (∃ sc lv, (evaluate_message [] "m9" "x" "" (false, "") 3).1 = (true, sc, lv) ∧
        (evaluate_message [] "m9" "x" "" (false, "") 3).2
          = save_weight [] "m9" "x" "" sc lv 3)) :=
  ⟨(C2_history_append_amended [c2CachedRecord] "m1" "x" "" (true, "abc") 2).1 rfl,
   (C2_history_append_amended [] "m9" "x" "" (false, "") 3).2 rfl⟩

/-- History entries for the unknown-filter-mode witness. -/
def c10RecordA : WeightRecord := ⟨"a", 10, "low", 5, "msgA", ""⟩

def c10RecordB : WeightRecord := ⟨"b", 90, "high", 3, "msgB", ""⟩

/-- C10 (confirmed): for a filter mode other than `disabled`, `selective` and
`balanced`, `get_filtered_messages` keeps every history entry (the per-record
filter accepts everything) and only the timestamp-descending sort and the
`limit` truncation shape the returned message ids. -/
theorem C10_unknown_mode_no_filter (mode : String) (high medium : ℚ)
    (hist : List WeightRecord) (limit : Nat)
    (h1 : mode ≠ "disabled") (h2 : mode ≠ "selective") (h3 : mode ≠ "balanced") :
    hist.filter (weight_keep mode high medium) = hist ∧
    (get_filtered_messages mode high medium hist limit).2
      = ((sortByTimeDesc hist).take limit).map (fun r => r.messageId) := by
  have hfilter : hist.filter (weight_keep mode high medium) = hist :=
    List.filter_eq_self.mpr (fun r _ => by unfold weight_keep; rw [if_neg h2, if_neg h3])
  refine ⟨hfilter, ?_⟩
  unfold get_filtered_messages
  rw [if_neg h1, hfilter]
  dsimp only
  split
  · next htop => rw [htop]; rfl
  · rfl

/-- Witness for C10 under the mode `"weird"` on a two-entry history. -/
theorem C10_unknown_mode_no_filter_witness :
    [c10RecordA, c10RecordB].filter (weight_keep "weird" 70 40) = [c10RecordA, c10RecordB] ∧
    (get_filtered_messages "weird" 70 40 [c10RecordA, c10RecordB] 10).2
      = ((sortByTimeDesc [c10RecordA, c10RecordB]).take 10).map (fun r => r.messageId) :=
  C10_unknown_mode_no_filter "weird" 70 40 [c10RecordA, c10RecordB] 10
    (by decide) (by decide) (by decide)

/-- One capped append moves the keep-the-last-100 window one step: appending
to the last-100 window of `l` gives the last-100 window of `l ++ [r]`. -/
theorem save_weight_rec_window (l : List WeightRecord) (r : WeightRecord) :
    save_weight_rec (l.drop (l.length - 100)) r
      = (l ++ [r]).drop ((l ++ [r]).length - 100) := by
  unfold save_weight_rec
  by_cases h : 100 ≤ l.length
  · have hlen : (l.drop (l.length - 100) ++ [r]).length = 101 := by
      simp [List.length_drop]
      omega
    rw [if_pos (by omega)]
    rw [hlen]
    rw [List.drop_append_of_le_length (by simp [List.length_drop]; try omega)]
    rw [List.drop_drop]
    rw [List.drop_append_of_le_length (by simp)]
    have e1 : l.length - 100 + (101 - 100) = l.length - 99 := by omega
    have e2 : (l ++ [r]).length - 100 = l.length - 99 := by simp; try omega
    rw [e1, e2]
  · have h0 : l.length - 100 = 0 := by omega
    have h1 : (l ++ [r]).length - 100 = 0 := by simp; try omega
    rw [h0, h1, List.drop_zero, List.drop_zero]
    rw [if_neg (by simp; try omega)]

/-- Folding capped appends starting from the last-100 window of `l` lands on
the last-100 window of `l ++ rs`. -/
theorem foldl_save_weight_rec_window (rs : List WeightRecord) :
    ∀ l : List WeightRecord,
      rs.foldl save_weight_rec (l.drop (l.length - 100))
        = (l ++ rs).drop ((l ++ rs).length - 100) := by
  induction rs with
  | nil => intro l; simp
  | cons r rs ih =>
    intro l
    rw [List.foldl_cons, save_weight_rec_window l r, ih (l ++ [r])]
    simp

/-- C5 (confirmed): a per-user history built by capped appends from empty is
always the suffix of the 100 most recently appended records — its length never
exceeds 100, and once more than 100 records have been appended (e.g. 150) the
retained entries are exactly the last 100, oldest evicted first. -/
theorem C5_bounded_history (rs : List WeightRecord) :
    rs.foldl save_weight_rec [] = rs.drop (rs.length - 100) ∧
    (rs.foldl save_weight_rec []).length = min rs.length 100 := by
  have h : rs.foldl save_weight_rec [] = rs.drop (rs.length - 100) := by
    have := foldl_save_weight_rec_window rs []
    simpa using this
  refine ⟨h, ?_⟩
  rw [h]
  simp [List.length_drop]
  omega

/-- Every pair stored by the primary eight-pattern extraction passed the
guard `value and value != "待观察"`. -/
theorem primaryImpressionExtract_guard (content : String) (keys : List String) :
    ∀ acc : List (String × String),
      acc.all (fun p => p.2 != "待观察" && p.2 != "") = true →
      (keys.foldl (impressionStep content) acc).all
        (fun p => p.2 != "待观察" && p.2 != "") = true := by
  induction keys with
  | nil => intro acc h; exact h
  | cons k ks ih =>
    intro acc h
    apply ih
    unfold impressionStep
    cases findStrippedCapture content k with
    | none => exact h
    | some v =>
      dsimp only
      split
      · next hv =>
        rw [List.all_append]
        simp only [h, Bool.true_and, List.all_cons, List.all_nil, Bool.and_true]
        simp [hv.1, hv.2]
      · exact h

/-- C7 (counterexample): the claim says any dimension whose extracted value
equals the sentinel `待观察` is absent from the result rather than stored; but
the `IMPRESSION:` fallback stores its capture verbatim, so the response
`"IMPRESSION: 待观察"` produces a mapping in which `interests_hobbies` holds
the sentinel itself. -/
theorem C7_sentinel_counterexample :
    parse_impression_response "IMPRESSION: 待观察" = [("interests_hobbies", "待观察")] ∧
    (parse_impression_response "IMPRESSION: 待观察").lookup "interests_hobbies"
      = some "待观察" :=
  ⟨rfl, rfl⟩

/-- C7 (amended): the concrete example holds — on
`"personality_traits: 开朗;interests_hobbies: 待观察"` the parser returns
exactly the mapping `personality_traits ↦ 开朗` — and in the primary
per-dimension extraction every sentinel-valued (or empty) capture is dropped;
only the `IMPRESSION:` fallback path can store the sentinel text. -/
theorem C7_sentinel_amended (content : String) :
    parse_impression_response "personality_traits: 开朗;interests_hobbies: 待观察"
      = [("personality_traits", "开朗")] ∧
    (primaryImpressionExtract content).all (fun p => p.2 != "待观察") = true ∧
    (primaryImpressionExtract content).all (fun p => p.2 != "") = true := by
  have hall := primaryImpressionExtract_guard content impressionDims [] rfl
  rw [List.all_eq_true] at hall
  refine ⟨rfl, ?_, ?_⟩
  · rw [List.all_eq_true]
    intro p hp
    have h2 := hall p hp
    simp only [Bool.and_eq_true] at h2
    exact h2.1
  · rw [List.all_eq_true]
    intro p hp
    have h2 := hall p hp
    simp only [Bool.and_eq_true] at h2
    exact h2.2

/-- The pre-merge profile for the C1 counterexample: `personality_traits`
already holds text. -/
def c1ExistingProfile : UserImpression :=
  { newUserImpression "u1" 0 with personality_traits := "开朗" }

/-- C1 (counterexample): the claim says a dimension absent from the parsed
mapping retains its pre-merge value; but `_save_impression` assigns every
dimension from `impression_data.get(key, "")`, so a successful merge whose
mapping only contains `interests_hobbies` clears the previously stored
`personality_traits` to the empty string. -/
theorem C1_merge_counterexample :
    (build_impression (some c1ExistingProfile) "u1" "我喜欢读书" ""
      (true, "interests_hobbies: 阅读") 5).1.1 = true ∧
    c1ExistingProfile.personality_traits = "开朗" ∧
    ((build_impression (some c1ExistingProfile) "u1" "我喜欢读书" ""
      (true, "interests_hobbies: 阅读") 5).2.map (fun p => p.personality_traits)) = some "" ∧
    ((build_impression (some c1ExistingProfile) "u1" "我喜欢读书" ""
      (true, "interests_hobbies: 阅读") 5).2.map (fun p => p.interests_hobbies)) = some "阅读" :=
  ⟨rfl, rfl, rfl, rfl⟩

/-- C1 (amended): every successful merge overwrites all eight profile
dimensions — a dimension present in the parsed mapping receives its parsed
value and a dimension absent from the mapping is reset to the empty string
(full overwrite, not per-dimension retention); `message_count` is bumped, and
a successful `build_impression` persists exactly this overwrite. -/
theorem C1_merge_amended (existing : Option UserImpression)
    (uid msg hc content : String) (data : List (String × String)) (now : Nat) :
    (save_impression existing uid data now).personality_traits
      = (data.lookup "personality_traits").getD "" ∧
    (save_impression existing uid data now).interests_hobbies
      = (data.lookup "interests_hobbies").getD "" ∧
    (save_impression existing uid data now).communication_style
      = (data.lookup "communication_style").getD "" ∧
    (save_impression existing uid data now).emotional_tendencies
      = (data.lookup "emotional_tendencies").getD "" ∧
    (save_impression existing uid data now).behavioral_patterns
      = (data.lookup "behavioral_patterns").getD "" ∧
    (save_impression existing uid data now).values_attitudes
      = (data.lookup "values_attitudes").getD "" ∧
    (save_impression existing uid data now).relationship_preferences
      = (data.lookup "relationship_preferences").getD "" ∧
    (save_impression existing uid data now).growth_development
      = (data.lookup "growth_development").getD "" ∧
    (save_impression existing uid data now).message_count
      = (match existing with | some i => i.message_count + 1 | none => 1) ∧
    (build_impression existing uid msg hc (true, content) now).2
      = (if parse_impression_response content = []
         then existing
         else some (save_impression existing uid (parse_impression_response content) now)) := by
  cases existing with
  | none =>
    refine ⟨rfl, rfl, rfl, rfl, rfl, rfl, rfl, rfl, rfl, ?_⟩
    by_cases h : parse_impression_response content = [] <;> simp [build_impression, h]
  | some i =>
    refine ⟨rfl, rfl, rfl, rfl, rfl, rfl, rfl, rfl, rfl, ?_⟩
    by_cases h : parse_impression_response content = [] <;> simp [build_impression, h]

end ImpressionPlugin
